import Mathlib

/-!
# Verification of `alert_downtrends.py`

A shallow embedding of the stock downtrend-alert script and proofs of its
specification's claims.

Modelling conventions:
* A pandas `Series` of daily closes is a `List (String × Option ℚ)`:
  (trading-session date, closing price), in date order.  A missing close
  (`NaN`) is `none`; Python floats are modelled as rationals (all the
  properties proved here are order-theoretic, not about rounding error).
* Python string methods (`str.strip`, `str.split`, `str.startswith`) are
  embedded directly as structural functions on the character list of a
  `String` (`pyStrip`, `pySplit`, `pyStartsWith`), matching Python's
  semantics on ASCII whitespace.
* Fallible Python code (`raise SystemExit`, `KeyError`, `IndexError`) is
  embedded with `Except String`.
* The file `tickers.txt` is an `Option (List String)`: `none` when the file
  does not exist, `some lines` for its lines (without trailing newlines,
  which `str.strip` would remove anyway).
* `yf.download`'s result (a pandas DataFrame) is a `FetchResult`: either the
  combined multi-ticker shape, whose columns are keyed by
  (ticker, field) pairs, or the single-ticker shape keyed by field only.
-/

/-- One column of price data: (session date, optional closing price). -/
abbrev Series := List (String × Option ℚ)

/-- `series.dropna()`: remove the rows whose value is missing. -/
def dropna (s : Series) : Series :=
  s.filter (fun p => p.2.isSome)

/-- `series.tail(k)`: the last `k` rows (the whole series when it is shorter). -/
def pdTail (k : Nat) (l : Series) : Series :=
  l.drop (l.length - k)

/-- The closing values of a series, missing rows skipped (pandas arithmetic
such as `.diff()` acts on these values). -/
def vals (s : Series) : List ℚ :=
  s.filterMap (fun p => p.2)

/-- `series.diff().dropna()`: the day-over-day differences
`price[i] - price[i-1]`; the leading `NaN` that `.diff()` produces is
removed by the following `.dropna()`, leaving one difference per adjacent
pair. -/
def pairDiffs : List ℚ → List ℚ
  | a :: b :: rest => (b - a) :: pairDiffs (b :: rest)
  | _ => []

/-- `is_consecutive_down(closes, n)` from `alert_downtrends.py`:
true iff the last `n` trading sessions are strictly down day-over-day;
requires at least `n + 1` valid data points. -/
def is_consecutive_down (closes : Series) (n : Nat) : Bool :=
  let closes := dropna closes
  if closes.length < n + 1 then false
  else (pairDiffs (vals (pdTail (n + 1) closes))).all (fun d => decide (d < 0))

/-- One call of `is_consecutive_down` against an explicit object heap.  The
caller's series lives at index `ref`; every pandas operation in the body
(`closes.dropna()`, `.tail`, `.diff`) returns a fresh object — the local
name `closes` is rebound to the new object, the caller's is never written.
We record the freshly allocated `closes.dropna()` at the end of the heap
(the later temporaries likewise only ever extend the heap). -/
def detect_call (heap : List Series) (ref : Nat) (n : Nat) : Bool × List Series :=
  (is_consecutive_down (heap.getD ref []) n, heap ++ [dropna (heap.getD ref [])])

/-- Python `str.strip()`: remove leading and trailing whitespace. -/
def pyStrip (s : String) : String :=
  String.mk ((s.data.dropWhile Char.isWhitespace).reverse.dropWhile
    Char.isWhitespace).reverse

/-- Helper for `pySplit`: accumulate the current token (reversed) while
scanning the characters. -/
def pySplitAux (sep : Char) : List Char → List Char → List (List Char)
  | [], acc => [acc.reverse]
  | c :: rest, acc =>
    if c = sep then acc.reverse :: pySplitAux sep rest []
    else pySplitAux sep rest (c :: acc)

/-- Python `s.split(sep)` for a one-character separator: split at every
occurrence, keeping empty tokens (`",".split(",") == ["", ""]`). -/
def pySplit (sep : Char) (s : String) : List String :=
  (pySplitAux sep s.data []).map String.mk

/-- Python `s.startswith(c)` for a one-character argument. -/
def pyStartsWith (c : Char) (s : String) : Bool :=
  match s.data with
  | [] => false
  | a :: _ => a = c

/-- The fixed default ticker set of `load_tickers`. -/
def defaultTickers : List String := ["AAPL", "MSFT", "TSLA", "AMZN", "GOOGL"]

/-- The pre-dedup ticker list `load_tickers` resolves, following the
source's three-way branch: non-blank CLI input first, else the
`tickers.txt` lines when the file exists (blank lines and lines whose
first character is `#` skipped, each kept line stripped), else the fixed
default list. -/
def resolve_tickers (cli_tickers : String) (tickersFile : Option (List String)) :
    List String :=
  if pyStrip cli_tickers ≠ "" then
    ((pySplit ',' cli_tickers).filter (fun t => pyStrip t ≠ "")).map pyStrip
  else
    match tickersFile with
    | some lines =>
        (lines.filter (fun ln => pyStrip ln ≠ "" && !pyStartsWith '#' ln)).map pyStrip
    | none => defaultTickers

/-- `load_tickers(cli_tickers)` from `alert_downtrends.py`; the
`tickersFile` argument models whether `tickers.txt` exists and its lines.
`raise SystemExit("No tickers provided.")` is the `Except.error` case;
Python's `sorted(set(tickers))` is the sorted list of the distinct
resolved tickers. -/
def load_tickers (cli_tickers : String) (tickersFile : Option (List String)) :
    Except String (List String) :=
  let tickers := resolve_tickers cli_tickers tickersFile
  if tickers = [] then Except.error "No tickers provided."
  else Except.ok (List.insertionSort (· ≤ ·) tickers.dedup)

/-- The shape of `yf.download`'s result: a DataFrame whose columns are
either a MultiIndex keyed by (ticker, field) — the combined multi-ticker
shape — or a flat index keyed by field (the single-ticker shape). -/
inductive FetchResult where
  | combined (cols : List ((String × String) × Series))
  | single (cols : List (String × Series))

/-- The combined-shape arm of the normalization loop in `main`: for each
requested ticker, keep it iff the `(t, "Close")` column is present, paired
with that column after `.dropna()`. -/
def normCombined (tickers : List String) (cols : List ((String × String) × Series)) :
    List (String × Series) :=
  tickers.filterMap (fun t => (List.lookup (t, "Close") cols).map (fun s => (t, dropna s)))

/-- The Series Normalizer: lines 121-128 of `alert_downtrends.py`, building
`closes_by_ticker` from the fetch result.  The single-ticker arm indexes
`tickers[0]` (IndexError on an empty list) and `data["Close"]` (KeyError
when the column is absent). -/
def normalizeCloses (tickers : List String) (data : FetchResult) :
    Except String (List (String × Series)) :=
  match data with
  | FetchResult.combined cols => Except.ok (normCombined tickers cols)
  | FetchResult.single cols =>
    match tickers with
    | [] => Except.error "IndexError: list index out of range"
    | t :: _ =>
      match List.lookup "Close" cols with
      | some s => Except.ok [(t, dropna s)]
      | none => Except.error "KeyError: Close"

/-- Insert a comma after every three characters of a reversed digit
string (helper for the thousands grouping of Python's `,.2f` format). -/
def groupRev : List Char → List Char
  | a :: b :: c :: d :: rest => a :: b :: c :: ',' :: groupRev (d :: rest)
  | l => l

/-- Thousands grouping of a digit string: `"1234" ↦ "1,234"`. -/
def groupThousands (s : String) : String :=
  String.mk (groupRev s.data.reverse).reverse

/-- Python's format spec `,.2f` applied to a closing price: two decimals with
thousands grouping (the binary-float rounding of CPython is abstracted to
rational half-rounding; no property proved here depends on the digits). -/
def formatClose (q : ℚ) : String :=
  let cents : Int := round (q * 100)
  let n := cents.natAbs
  (if cents < 0 then "-" else "") ++ groupThousands (toString (n / 100)) ++ "." ++
    (if n % 100 < 10 then "0" else "") ++ toString (n % 100)

/-- One table cell `date: price` (a missing value would print as NaN, but
normalized series have none). -/
def formatCell (p : String × Option ℚ) : String :=
  match p.2 with
  | some q => "<div>" ++ p.1 ++ ": " ++ formatClose q ++ "</div>"
  | none => "<div>" ++ p.1 ++ ": nan</div>"

/-- `build_email_html` from `alert_downtrends.py`: `None` for an empty
match list, otherwise the HTML report assembled from one table row per
match, each showing the last `last_n_to_show` closes.  (The Python
parameter is a reserved word in Lean and is spelled `matchList` here.) -/
def build_email_html (matchList : List (String × Series)) (last_n_to_show : Nat) :
    Option String :=
  if matchList = [] then none
  else
    let rows := matchList.map (fun m =>
      let closes := pdTail last_n_to_show (dropna m.2)
      let cells := String.join (closes.map formatCell)
      "<tr><td><b>" ++ m.1 ++ "</b></td><td>" ++ cells ++ "</td></tr>")
    let table := "\n    <table border=\"1\" cellpadding=\"6\" cellspacing=\"0\" style=\"border-collapse:collapse;\">\n      <thead>\n        <tr><th>Ticker</th><th>Last " ++
      toString last_n_to_show ++ " closes</th></tr>\n      </thead>\n      <tbody>\n        " ++
      String.join rows ++ "\n      </tbody>\n    </table>\n    "
    some ("\n    <html>\n    <body>\n      <p>The following tickers have <b>7 consecutive down days</b> (by daily close):</p>\n      " ++
      table ++
      "\n      <p style=\"font-size:12px;color:#666;\">\n        Source: Yahoo Finance (via yfinance). Trading days only; weekends/holidays automatically skipped.\n      </p>\n    </body>\n    </html>\n    ")

/-- The pure core of `main`: resolve tickers, fetch (the `download`
argument stands for `yf.download`), normalize, detect, build the report.
The outcome is the match list together with the optional report body; SMTP
delivery and printing are outside the core. -/
def main_core (cli_tickers : String) (tickersFile : Option (List String))
    (download : List String → FetchResult) (days_check : Nat)
    (last_n_to_show : Nat) : Except String (List (String × Series) × Option String) :=
  match load_tickers cli_tickers tickersFile with
  | Except.error e => Except.error e
  | Except.ok tickers =>
    match normalizeCloses tickers (download tickers) with
    | Except.error e => Except.error e
    | Except.ok closes_by_ticker =>
      let matchList := closes_by_ticker.filter
        (fun p => is_consecutive_down p.2 days_check)
      Except.ok (matchList, build_email_html matchList last_n_to_show)

-- Auxiliary lemmas about the embedding

theorem dropna_isSome {s : Series} {p : String × Option ℚ} (hp : p ∈ dropna s) :
    p.2.isSome := by
  have := List.of_mem_filter hp
  simpa using this

theorem length_pdTail (k : Nat) (l : Series) :
    (pdTail k l).length = l.length - (l.length - k) := by
  simp [pdTail]

theorem length_pdTail_of_le {k : Nat} {l : Series} (h : k ≤ l.length) :
    (pdTail k l).length = k := by
  rw [length_pdTail]; omega

theorem vals_length_of_all_some :
    ∀ (l : Series), (∀ p ∈ l, p.2.isSome = true) → (vals l).length = l.length
  | [], _ => rfl
  | p :: t, h => by
    obtain ⟨v, hv⟩ := Option.isSome_iff_exists.mp (h p (by simp))
    have ht := vals_length_of_all_some t (fun q hq => h q (by simp [hq]))
    simp [vals, hv] at ht ⊢
    exact ht

theorem vals_length_of_dropna (s : Series) :
    (vals (dropna s)).length = (dropna s).length :=
  vals_length_of_all_some (dropna s) (fun _ hp => dropna_isSome hp)

theorem pairDiffs_all_neg_iff (l : List ℚ) :
    ((pairDiffs l).all (fun d => decide (d < 0)) = true) ↔ l.Chain' (· > ·) := by
  induction l with
  | nil => simp [pairDiffs]
  | cons a t ih =>
    cases t with
    | nil => simp [pairDiffs]
    | cons b r =>
      rw [pairDiffs, List.all_cons, List.chain'_cons]
      constructor
      · intro h
        have h1 := (Bool.and_eq_true _ _).mp h
        refine ⟨by have := of_decide_eq_true h1.1; simpa [gt_iff_lt] using this, ?_⟩
        exact ih.mp h1.2
      · intro h
        refine (Bool.and_eq_true _ _).mpr ⟨?_, ih.mpr h.2⟩
        exact decide_eq_true (by simpa [gt_iff_lt] using h.1)

/-- C1: `is_consecutive_down` returns true iff, after dropping missing
values, the series has at least `n + 1` points and the closing values over
the trailing `n + 1` points are strictly decreasing day-over-day (each of
the `n` day-over-day differences is strictly negative; `Chain' (· > ·)`
states exactly that every adjacent difference is `< 0`, so a flat day
falsifies it, and a series with fewer than `n + 1` valid points falls in
the `false` branch rather than erring). -/
theorem is_consecutive_down_iff (s : Series) (n : Nat) :
    is_consecutive_down s n = true ↔
      n + 1 ≤ (dropna s).length ∧
        (vals (pdTail (n + 1) (dropna s))).Chain' (· > ·) := by
  unfold is_consecutive_down
  by_cases h : (dropna s).length < n + 1
  · simp only [h, if_true]
    constructor
    · intro hfalse; cases hfalse
    · rintro ⟨hlen, -⟩; omega
  · simp only [h, if_false]
    rw [pairDiffs_all_neg_iff]
    constructor
    · intro hc; exact ⟨by omega, hc⟩
    · rintro ⟨-, hc⟩; exact hc

theorem pairDiffs_eq_nil_of_short : ∀ {l : List ℚ}, l.length ≤ 1 → pairDiffs l = []
  | [], _ => rfl
  | [_], _ => rfl
  | _ :: _ :: _, h => by simp at h

/-- C10: with threshold `n = 0`, `is_consecutive_down` returns true exactly
when the series has at least one valid (non-missing) point: the single
trailing point yields zero day-over-day differences, which are vacuously
all strictly negative, while an all-missing series fails the
`len(closes) < n + 1` guard. -/
theorem is_consecutive_down_zero_iff (s : Series) :
    is_consecutive_down s 0 = true ↔ dropna s ≠ [] := by
  unfold is_consecutive_down
  by_cases h : (dropna s).length < 0 + 1
  · simp only [h, if_true]
    have : dropna s = [] := List.eq_nil_of_length_eq_zero (by omega)
    simp [this]
  · simp only [h, if_false]
    have h1 : (vals (pdTail (0 + 1) (dropna s))).length ≤ 1 := by
      calc (vals (pdTail (0 + 1) (dropna s))).length
          ≤ (pdTail (0 + 1) (dropna s)).length := List.length_filterMap_le _ _
        _ ≤ 1 := by rw [length_pdTail]; omega
    rw [pairDiffs_eq_nil_of_short h1]
    constructor
    · intro _ hnil
      rw [hnil] at h
      simp at h
    · intro _
      rfl

/-- C2: the Detector's outcome depends only on the trailing `n + 1` valid
points: two series whose post-`dropna` trailing `n + 1` rows coincide get
the same result, whatever their earlier values were. -/
theorem is_consecutive_down_trailing_window (s1 s2 : Series) (n : Nat)
    (h : pdTail (n + 1) (dropna s1) = pdTail (n + 1) (dropna s2)) :
    is_consecutive_down s1 n = is_consecutive_down s2 n := by
  have hlen := congrArg List.length h
  rw [length_pdTail, length_pdTail] at hlen
  unfold is_consecutive_down
  by_cases h1 : (dropna s1).length < n + 1
  · have h2 : (dropna s2).length < n + 1 := by omega
    simp [h1, h2]
  · have h2 : ¬ (dropna s2).length < n + 1 := by omega
    simp only [h1, h2, if_false]
    rw [h]

/-- Witness for C2 at a concrete pair of series: prepending an earlier,
higher close does not change the Detector's verdict for `n = 1`. -/
theorem is_consecutive_down_trailing_window_witness :
    pdTail 2 (dropna [("2024-01-02", some (5:ℚ)), ("2024-01-03", some 3)]) =
      pdTail 2 (dropna [("2024-01-01", some (1:ℚ)), ("2024-01-02", some 5),
        ("2024-01-03", some 3)]) ∧
    is_consecutive_down [("2024-01-02", some (5:ℚ)), ("2024-01-03", some 3)] 1 =
      is_consecutive_down [("2024-01-01", some (1:ℚ)), ("2024-01-02", some 5),
        ("2024-01-03", some 3)] 1 :=
  ⟨by decide, is_consecutive_down_trailing_window _ _ 1 (by decide)⟩

/-- C9: calling the Detector twice with the same series reference and the
same `n` yields the same result, and the call leaves the input series
unchanged in the heap (no hidden state mutation). -/
theorem is_consecutive_down_idempotent (heap : List Series) (ref : Nat) (n : Nat)
    (h : ref < heap.length) :
    (detect_call (detect_call heap ref n).2 ref n).1 = (detect_call heap ref n).1 ∧
    (detect_call heap ref n).2.getD ref [] = heap.getD ref [] := by
  have hget : (heap ++ [dropna (heap.getD ref [])]).getD ref [] = heap.getD ref [] := by
    simp [List.getD_eq_getElem?_getD, List.getElem?_append_left h]
  refine ⟨?_, ?_⟩
  · show is_consecutive_down ((heap ++ [dropna (heap.getD ref [])]).getD ref []) n =
      is_consecutive_down (heap.getD ref []) n
    rw [hget]
  · show (heap ++ [dropna (heap.getD ref [])]).getD ref [] = heap.getD ref []
    exact hget

/-- Witness for C9 at a one-series heap. -/
theorem is_consecutive_down_idempotent_witness :
    0 < ([[("2024-01-02", some (1:ℚ))]] : List Series).length ∧
    ((detect_call (detect_call [[("2024-01-02", some (1:ℚ))]] 0 7).2 0 7).1 =
        (detect_call [[("2024-01-02", some (1:ℚ))]] 0 7).1 ∧
      (detect_call [[("2024-01-02", some (1:ℚ))]] 0 7).2.getD 0 [] =
        ([[("2024-01-02", some (1:ℚ))]] : List Series).getD 0 []) :=
  ⟨by decide, is_consecutive_down_idempotent _ 0 7 (by decide)⟩

/-- C3: the Report Builder returns the defined absent value (`none`)
exactly on the empty match set; every non-empty match set yields a present
report. -/
theorem build_email_html_none_iff (matchList : List (String × Series)) (k : Nat) :
    build_email_html matchList k = none ↔ matchList = [] := by
  unfold build_email_html
  by_cases h : matchList = []
  · simp [h]
  · simp [h]

/-- C4: for a combined-shape fetch result the Normalizer never raises, and
its mapping's keys are exactly the requested tickers whose
`(ticker, "Close")` column is present in the result — a requested ticker
with no closing-price column is silently omitted. -/
theorem normalizeCloses_combined_keys (tickers : List String)
    (cols : List ((String × String) × Series)) :
    normalizeCloses tickers (FetchResult.combined cols) =
        Except.ok (normCombined tickers cols) ∧
      ∀ t, t ∈ (normCombined tickers cols).map Prod.fst ↔
        t ∈ tickers ∧ (List.lookup (t, "Close") cols).isSome = true := by
  refine ⟨rfl, fun t => ?_⟩
  constructor
  · intro ht
    rcases List.mem_map.mp ht with ⟨p, hp, hpt⟩
    rcases List.mem_filterMap.mp hp with ⟨a, ha, hfa⟩
    rcases Option.map_eq_some'.mp hfa with ⟨s, hlk, hgs⟩
    have hat : a = t := by rw [← hpt, ← hgs]
    subst hat
    exact ⟨ha, by simp [hlk]⟩
  · rintro ⟨ht, hsome⟩
    obtain ⟨s, hs⟩ := Option.isSome_iff_exists.mp hsome
    exact List.mem_map.mpr
      ⟨(t, dropna s), List.mem_filterMap.mpr ⟨t, ht, by simp [hs]⟩, rfl⟩

/-- C5: for a single-symbol-shape fetch result whose closing column is
present, with sole requested symbol `t`, the Normalizer yields exactly one
entry, keyed by `t`, holding the result's closing-price series (missing
rows dropped, per the Normalizer's contract). -/
theorem normalizeCloses_single (t : String) (cols : List (String × Series)) (s : Series)
    (h : List.lookup "Close" cols = some s) :
    normalizeCloses [t] (FetchResult.single cols) = Except.ok [(t, dropna s)] := by
  simp [normalizeCloses, h]

/-- Witness for C5 at a one-column fetch result. -/
theorem normalizeCloses_single_witness :
    List.lookup "Close" [("Close", [("2024-01-02", some (3:ℚ))])] =
        some [("2024-01-02", some (3:ℚ))] ∧
      normalizeCloses ["AAPL"]
          (FetchResult.single [("Close", [("2024-01-02", some (3:ℚ))])]) =
        Except.ok [("AAPL", dropna [("2024-01-02", some (3:ℚ))])] :=
  ⟨by decide, normalizeCloses_single "AAPL" _ _ (by decide)⟩

/-- C6: whenever `load_tickers` returns normally, its result is a
non-empty, duplicate-free, lexicographically sorted list whose members are
exactly the tickers resolved by the source's precedence chain (non-empty
CLI input first, else the ticker file's usable lines, else the default
set), as embodied by `resolve_tickers`. -/
theorem load_tickers_spec (cli : String) (file : Option (List String))
    (l : List String) (h : load_tickers cli file = Except.ok l) :
    l ≠ [] ∧ l.Nodup ∧ l.Sorted (· ≤ ·) ∧
      ∀ x, x ∈ l ↔ x ∈ resolve_tickers cli file := by
  unfold load_tickers at h
  by_cases he : resolve_tickers cli file = []
  · rw [if_pos he] at h
    cases h
  · rw [if_neg he] at h
    cases h
    have hperm := List.perm_insertionSort (· ≤ ·) (resolve_tickers cli file).dedup
    refine ⟨?_, ?_, ?_, ?_⟩
    · intro h0
      rw [h0] at hperm
      exact he ((List.dedup_eq_nil _).mp (List.Perm.symm hperm).eq_nil)
    · exact hperm.nodup_iff.mpr (List.nodup_dedup _)
    · exact List.sorted_insertionSort (· ≤ ·) _
    · intro x
      rw [List.mem_insertionSort, List.mem_dedup]

/-- Witness for C6 at a concrete CLI string with whitespace, a duplicate
and a trailing empty token. -/
theorem load_tickers_spec_witness :
    (["AA"] : List String) ≠ [] ∧ (["AA"] : List String).Nodup ∧
      (["AA"] : List String).Sorted (· ≤ ·) ∧
      ∀ x, x ∈ (["AA"] : List String) ↔ x ∈ resolve_tickers " AA, AA ," none :=
  load_tickers_spec " AA, AA ," none ["AA"] rfl

/-- C7: the Loader fails (the `SystemExit` that terminates the run with a
non-zero status and the diagnostic "No tickers provided.") exactly when
the resolved ticker list is empty; and in that case `main_core` fails with
that diagnostic identically for every downloader — no fetch can influence
the outcome, i.e. the run aborts before any fetch matters. -/
theorem load_tickers_empty_iff (cli : String) (file : Option (List String)) :
    ((∃ msg, load_tickers cli file = Except.error msg) ↔
        resolve_tickers cli file = []) ∧
      ∀ dl dl2 n k, resolve_tickers cli file = [] →
        main_core cli file dl n k = Except.error "No tickers provided." ∧
          main_core cli file dl n k = main_core cli file dl2 n k := by
  constructor
  · constructor
    · rintro ⟨msg, hmsg⟩
      by_contra he
      unfold load_tickers at hmsg
      rw [if_neg he] at hmsg
      cases hmsg
    · intro he
      exact ⟨"No tickers provided.", by unfold load_tickers; rw [if_pos he]⟩
  · intro dl dl2 n k he
    have hload : load_tickers cli file = Except.error "No tickers provided." := by
      unfold load_tickers
      rw [if_pos he]
    constructor
    · unfold main_core
      rw [hload]
    · unfold main_core
      rw [hload]

/-- Witness for C7: a CLI string consisting of a bare comma resolves to no
tickers, so the Loader raises and the run's outcome ignores the
downloader. -/
theorem load_tickers_empty_iff_witness :
    (∃ msg, load_tickers "," none = Except.error msg) ∧
      main_core "," none (fun _ => FetchResult.single []) 7 4 =
          Except.error "No tickers provided." ∧
        main_core "," none (fun _ => FetchResult.single []) 7 4 =
          main_core "," none (fun _ => FetchResult.combined []) 7 4 :=
  ⟨(load_tickers_empty_iff "," none).1.mpr (by decide),
    (load_tickers_empty_iff "," none).2 _ _ 7 4 (by decide)⟩

/-- C8: every series in the Normalizer's output mapping is free of missing
(null) closing values, and so is every series in the match list that the
Detector filters out of that mapping and hands to the Report Builder in
`main_core`. -/
theorem normalized_series_no_nulls :
    (∀ tickers data m, normalizeCloses tickers data = Except.ok m →
        ∀ p ∈ m, ∀ q ∈ p.2, q.2.isSome = true) ∧
      ∀ cli file dl n k out, main_core cli file dl n k = Except.ok out →
        ∀ p ∈ out.1, ∀ q ∈ p.2, q.2.isSome = true := by
  have h1 : ∀ tickers data m, normalizeCloses tickers data = Except.ok m →
      ∀ p ∈ m, ∀ q ∈ p.2, q.2.isSome = true := by
    intro tickers data m hm p hp q hq
    cases data with
    | combined cols =>
      cases hm
      rcases List.mem_filterMap.mp hp with ⟨a, _, hfa⟩
      rcases Option.map_eq_some'.mp hfa with ⟨s, _, hgs⟩
      rw [← hgs] at hq
      exact dropna_isSome hq
    | single cols =>
      cases tickers with
      | nil => cases hm
      | cons t rest =>
        cases hlk : List.lookup "Close" cols with
        | none =>
          simp only [normalizeCloses, hlk] at hm
          cases hm
        | some s =>
          simp only [normalizeCloses, hlk, Except.ok.injEq] at hm
          rw [← hm] at hp
          rcases List.mem_singleton.mp hp with rfl
          exact dropna_isSome hq
  refine ⟨h1, ?_⟩
  intro cli file dl n k out hout p hp q hq
  unfold main_core at hout
  cases hload : load_tickers cli file with
  | error e =>
    rw [hload] at hout
    cases hout
  | ok tickers =>
    simp only [hload] at hout
    cases hnorm : normalizeCloses tickers (dl tickers) with
    | error e =>
      simp only [hnorm] at hout
      cases hout
    | ok m =>
      simp only [hnorm] at hout
      cases hout
      exact h1 tickers (dl tickers) m hnorm p (List.mem_of_mem_filter hp) q hq

/-- Witness for C8: a normalized mapping entry built from a column with a
missing row, and a match entry surviving `main_core`, both carry only
present values. -/
theorem normalized_series_no_nulls_witness :
    (("2024-01-02", some (1:ℚ)) : String × Option ℚ).2.isSome = true ∧
      (("2024-01-03", some (2:ℚ)) : String × Option ℚ).2.isSome = true :=
  ⟨normalized_series_no_nulls.1 ["AAPL"]
      (FetchResult.combined
        [(("AAPL", "Close"), [("2024-01-02", some 1), ("2024-01-03", none)])])
      [("AAPL", [("2024-01-02", some 1)])] rfl
      ("AAPL", [("2024-01-02", some 1)]) (by decide)
      ("2024-01-02", some 1) (by decide),
    normalized_series_no_nulls.2 "A" none
      (fun _ => FetchResult.single [("Close", [("2024-01-03", some 2)])]) 0 4
      ([("A", [("2024-01-03", some 2)])],
        build_email_html [("A", [("2024-01-03", some 2)])] 4) rfl
      ("A", [("2024-01-03", some 2)]) (by decide)
      ("2024-01-03", some 2) (by decide)⟩
